import Mathlib

/-
Shallow embedding of the Cynthion capture backend (src/backend/cynthion.rs):
speed negotiation, the packed capture-state byte, the capture event loop with
its cooperative cancellation protocol, the length-prefixed packet deframer,
and the device capability probe.  Bytes are modelled as natural numbers,
byte buffers as lists of naturals, and the fallible USB calls as explicit
result parameters.
-/

set_option linter.unusedVariables false

namespace Cynthion

/-- Interface class expected for the analyzer interface (const CLASS). -/
def CLASS : Nat := 0xff

/-- Interface subclass expected for the analyzer interface (const SUBCLASS). -/
def SUBCLASS : Nat := 0x10

/-- Protocol version expected for the analyzer interface (const PROTOCOL). -/
def PROTOCOL : Nat := 0x00

/-- Capture speeds (enum Speed, repr u8, with High as the default variant). -/
inductive Speed
  | High
  | Full
  | Low
  | Auto
deriving DecidableEq, Repr

/-- Wire bitmask of each speed (Speed::mask). -/
def Speed.mask : Speed → Nat
  | .Auto => 0b0001
  | .Low  => 0b0010
  | .Full => 0b0100
  | .High => 0b1000

/-- Numeric discriminant of each speed (IntoPrimitive on repr u8). -/
def Speed.toPrim : Speed → Nat
  | .High => 0
  | .Full => 1
  | .Low  => 2
  | .Auto => 3

/-- Conversion from a numeric code back to a speed (FromPrimitive, with
the default variant High for any unlisted code). -/
def Speed.fromPrim (n : Nat) : Speed :=
  if n = 1 then .Full
  else if n = 2 then .Low
  else if n = 3 then .Auto
  else .High

/-- Decoding of the 1-byte speed-mask response (the loop in
CynthionHandle::speeds): test each speed in the fixed order Auto, High,
Full, Low and keep those whose mask bit is set in the response byte. -/
def decodeSpeeds (b : Nat) : List Speed :=
  [Speed.Auto, Speed.High, Speed.Full, Speed.Low].filter
    (fun speed => b.land speed.mask != 0)

/-- The packed capture-state byte (bitfield struct State(u8)). -/
structure State where
  bits : Nat
deriving DecidableEq, Repr

/-- Bitfield setter for the enabled flag, stored in bit 0
(set_enable field declaration: bool, enable, set_enable: 0). -/
def State.set_enable (st : State) (b : Bool) : State :=
  if b then ⟨st.bits.lor 1⟩ else ⟨st.bits.land 0xfe⟩

/-- Bitfield setter for the 2-bit speed code, stored in bits 2..1
(set_speed field declaration: u8, from into Speed, speed, set_speed: 2, 1). -/
def State.set_speed (st : State) (s : Speed) : State :=
  ⟨(st.bits.land 0xf9).lor ((s.toPrim.land 0b11) <<< 1)⟩

/-- Bitfield reader for the enabled flag (bit 0). -/
def State.enable (st : State) : Bool :=
  st.bits.testBit 0

/-- Bitfield reader for the speed code (bits 2..1), converted back to a
Speed via FromPrimitive. -/
def State.speed (st : State) : Speed :=
  Speed.fromPrim ((st.bits >>> 1).land 0b11)

/-- State::new: start from zero, set the enabled flag, then the speed. -/
def State.new (enable : Bool) (speed : Speed) : State :=
  (State.set_enable ⟨0⟩ enable).set_speed speed

/-- CynthionStream::next_buffered_packet on the ordered byte buffer:
if strictly more than 2 bytes are buffered and strictly more than
2 + packet_len bytes are buffered (packet_len being the big-endian value
of the first two bytes), drain the 2-byte header and then drain and
return the packet; otherwise yield nothing. -/
def next_buffered_packet (buffer : List Nat) : Option (List Nat × List Nat) :=
  if buffer.length ≤ 2 then
    none
  else if buffer.length ≤ 2 + (256 * buffer.getD 0 0 + buffer.getD 1 0) then
    none
  else
    some ((buffer.drop 2).take (256 * buffer.getD 0 0 + buffer.getD 1 0),
          buffer.drop (2 + (256 * buffer.getD 0 0 + buffer.getD 1 0)))

/-- One call to Iterator::next for CynthionStream.  The channel is modelled
by the list of chunks the capture thread will still send before closing the
channel: next either returns a buffered packet, or repeatedly receives a
chunk, appends it to the buffer and retries, or returns none once the
channel is exhausted (closed).  The result carries the updated buffer and
the chunks not yet received. -/
def streamNext : List Nat → List (List Nat) →
    Option (List Nat × List Nat × List (List Nat))
  | buffer, [] =>
    match next_buffered_packet buffer with
    | some (packet, rest) => some (packet, rest, [])
    | none => none
  | buffer, c :: cs =>
    match next_buffered_packet buffer with
    | some (packet, rest) => some (packet, rest, c :: cs)
    | none => streamNext (buffer ++ c) cs

/-- Exhaustive iteration of CynthionStream: collect every packet yielded by
repeated calls to next, starting from the given buffer, with the given
chunks still to arrive on the channel before it closes. -/
def streamAll (buffer : List Nat) (chunks : List (List Nat)) : List (List Nat) :=
  match h : next_buffered_packet buffer with
  | some (packet, rest) => packet :: streamAll rest chunks
  | none =>
    match chunks with
    | [] => []
    | c :: cs => streamAll (buffer ++ c) cs
termination_by (chunks.length, buffer.length)
decreasing_by
  · apply Prod.Lex.right
    simp only [next_buffered_packet] at h
    split at h
    · exact absurd h (by simp)
    · split at h
      · exact absurd h (by simp)
      · rename_i h2 h3
        simp only [Option.some.injEq, Prod.mk.injEq] at h
        obtain ⟨hp, hr⟩ := h
        subst hr
        simp only [List.length_drop]
        omega
  · apply Prod.Lex.left
    simp

/-- Reference deframing of a single contiguous byte sequence: repeatedly
extract buffered packets until none can be extracted.  Used to relate the
chunked stream to the concatenation of all its bytes. -/
def deframe (bytes : List Nat) : List (List Nat) :=
  match h : next_buffered_packet bytes with
  | some (packet, rest) => packet :: deframe rest
  | none => []
termination_by bytes.length
decreasing_by
  simp only [next_buffered_packet] at h
  split at h
  · exact absurd h (by simp)
  · split at h
    · exact absurd h (by simp)
    · rename_i h2 h3
      simp only [Option.some.injEq, Prod.mk.injEq] at h
      obtain ⟨hp, hr⟩ := h
      subst hr
      simp only [List.length_drop]
      omega

/-- Serialization of one captured packet in the wire format: a 2-byte
big-endian length prefix followed by the payload. -/
def serializePacket (p : List Nat) : List Nat :=
  p.length / 256 :: p.length % 256 :: p

/-- Serialization of a sequence of packets back-to-back. -/
def serialize (packets : List (List Nat)) : List Nat :=
  (packets.map serializePacket).flatten

/-- Failure status of a completed bulk transfer (nusb TransferError):
either the expected cancellation status, or any other transport error,
distinguished here by a numeric code. -/
inductive TransferErr
  | Cancelled
  | Other (code : Nat)
deriving DecidableEq, Repr

/-- One wakeup of the capture event loop, as selected by select_biased:
either the stop request fires, or a queued transfer completes, with its
completion status.  A successful completion carries the received bytes and
whether the subsequent channel send would succeed (the mpsc send fails only
when the stream side has been dropped). -/
inductive Event
  | stop
  | completionOk (data : List Nat) (sendOk : Bool)
  | completionErr (e : TransferErr)
deriving DecidableEq, Repr

/-- Terminal result of the capture task (the value returned by the async
block run under block_on). -/
inductive LoopExit
  | ok
  | sendFailed
  | usbError (e : TransferErr)
deriving DecidableEq, Repr

/-- Observable state of the capture event loop: the local stopped flag, the
number of transfers pending in the queue, the chunks forwarded to the output
channel so far, and the number of transfers submitted by the loop so far. -/
structure LoopState where
  stopped : Bool
  pending : Nat
  sent : List (List Nat)
  submitted : Nat
deriving DecidableEq, Repr

/-- Result of one iteration of the capture loop body: either continue with
an updated state, or leave the loop with a terminal result. -/
inductive StepResult
  | next (s : LoopState)
  | exit (r : LoopExit) (s : LoopState)
deriving DecidableEq, Repr

/-- One iteration of the capture task loop body (the select_biased block in
CynthionHandle::start).  A stop request cancels all transfers and sets the
stopped flag.  A completed transfer first leaves the queue (pending drops by
one); on success with the loop not stopped its data is sent to the channel
and a fresh transfer is submitted, on success after stop the data is
dropped, on a Cancelled failure with the stopped flag set the completion is
dropped and the loop returns Ok once the queue is fully drained, and any
other failure makes the loop return that error. -/
def capture_step (s : LoopState) : Event → StepResult
  | .stop =>
    .next { s with stopped := true }
  | .completionOk data sendOk =>
    if s.stopped then
      .next { s with pending := s.pending - 1 }
    else if sendOk then
      .next { s with pending := s.pending - 1 + 1,
                     sent := s.sent ++ [data],
                     submitted := s.submitted + 1 }
    else
      .exit .sendFailed { s with pending := s.pending - 1 }
  | .completionErr e =>
    match e, s.stopped with
    | .Cancelled, true =>
      if s.pending - 1 = 0 then
        .exit .ok { s with pending := s.pending - 1 }
      else
        .next { s with pending := s.pending - 1 }
    | _, _ =>
      .exit (.usbError e) { s with pending := s.pending - 1 }

/-- Run of the capture loop over a sequence of wakeups: returns the terminal
result and final state if the loop exits on one of them, or the state
reached after all of them if it is still looping. -/
def capture_loop (s : LoopState) : List Event → Option LoopExit × LoopState
  | [] => (none, s)
  | ev :: evs =>
    match capture_step s ev with
    | .next s1 => capture_loop s1 evs
    | .exit r s1 => (some r, s1)

/-- Overall result of the capture thread closure (run_capture). -/
inductive RunResult
  | ok
  | enableWriteFailed
  | loopError (e : LoopExit)
  | disableWriteFailed
deriving DecidableEq, Repr

/-- What the capture thread did: the result handed to the completion
handler, and whether the disable-state write was performed. -/
structure RunOutcome where
  result : RunResult
  wroteDisable : Bool
deriving DecidableEq, Repr

/-- Control flow of the capture thread closure run_capture in
CynthionHandle::start: write the enable state (propagating failure), run the
capture task under block_on propagating its error with the question-mark
operator, and only then write the disable state (propagating its failure)
and return Ok.  The fallible device writes are modelled by the two boolean
parameters, the capture task result by the LoopExit parameter. -/
def run_capture (enableOk : Bool) (loopExit : LoopExit) (disableOk : Bool) :
    RunOutcome :=
  if enableOk = false then
    ⟨.enableWriteFailed, false⟩
  else
    match loopExit with
    | .ok =>
      if disableOk then ⟨.ok, true⟩ else ⟨.disableWriteFailed, true⟩
    | e =>
      ⟨.loopError e, false⟩

/-- Outcome of joining the worker thread (JoinHandle::join): the thread
either finished normally (the closure returns unit, its capture result
having gone to the result handler) or panicked. -/
inductive JoinResult
  | finished
  | panicked
deriving DecidableEq, Repr

/-- Errors CynthionStop::stop can report. -/
inductive StopError
  | sendStopFailed
  | workerPanicked
deriving DecidableEq, Repr

/-- CynthionStop::stop: send the stop request (failure to deliver it is an
error), then join the worker thread; a panic of the worker is reported,
and a normal worker exit yields Ok regardless of the capture result, which
was delivered to the result handler instead. -/
def CynthionStop.stop (sendOk : Bool) (j : JoinResult) : Except StopError Unit :=
  if sendOk = false then
    .error .sendStopFailed
  else
    match j with
    | .finished => .ok ()
    | .panicked => .error .workerPanicked

/-- One alternate setting of a USB interface, with the descriptor fields
check_device reads. -/
structure AltSetting where
  alternate_setting : Nat
  usb_class : Nat
  usb_subclass : Nat
  protocol : Nat
deriving DecidableEq, Repr

/-- One USB interface of the active configuration, together with the
outcomes of the fallible operations check_device performs on it: claiming
the interface, selecting a non-default alternate setting, and the speeds
request (some b when the device answers with the single byte b, none when
the control transfer fails or has the wrong length). -/
structure InterfaceDesc where
  interface_number : Nat
  alt_settings : List AltSetting
  claim_ok : Bool
  set_alt_ok : Bool
  speeds_byte : Option Nat
deriving DecidableEq, Repr

/-- The interface selection returned by a successful probe. -/
structure InterfaceSelection where
  interface_number : Nat
  alt_setting_number : Nat
deriving DecidableEq, Repr

/-- Errors check_device can report. -/
inductive CheckError
  | openFailed
  | configFailed
  | wrongProtocol (supported found : Nat)
  | claimFailed
  | altSettingFailed
  | speedsFailed
  | noInterface
deriving DecidableEq, Repr

/-- The inner alt-settings loop of check_device for one interface: skip
alt settings not matching the analyzer class and subclass; on the first
match, fail with a wrong-protocol error if the protocol differs, otherwise
claim the interface, select the alternate setting if non-default, fetch the
speeds and return the selection.  Returns none when no alt setting of this
interface matches, so that scanning proceeds to the next interface. -/
def scan_alt_settings (iface : InterfaceDesc) :
    List AltSetting → Option (Except CheckError (InterfaceSelection × List Speed))
  | [] => none
  | alt :: rest =>
    if alt.usb_class ≠ CLASS ∨ alt.usb_subclass ≠ SUBCLASS then
      scan_alt_settings iface rest
    else if alt.protocol ≠ PROTOCOL then
      some (.error (.wrongProtocol PROTOCOL alt.protocol))
    else if iface.claim_ok = false then
      some (.error .claimFailed)
    else if alt.alternate_setting ≠ 0 ∧ iface.set_alt_ok = false then
      some (.error .altSettingFailed)
    else
      match iface.speeds_byte with
      | none => some (.error .speedsFailed)
      | some b => some (.ok (⟨iface.interface_number, alt.alternate_setting⟩,
                             decodeSpeeds b))

/-- The outer interfaces loop of check_device: the first interface whose
alt-settings scan produces a verdict determines the result; if none does,
no supported analyzer interface was found. -/
def check_device_loop :
    List InterfaceDesc → Except CheckError (InterfaceSelection × List Speed)
  | [] => .error .noInterface
  | iface :: rest =>
    match scan_alt_settings iface iface.alt_settings with
    | some r => r
    | none => check_device_loop rest

/-- check_device: open the device, read the active configuration (each
modelled by a boolean success parameter), then scan interfaces and their
alternate settings. -/
def check_device (openOk configOk : Bool) (ifaces : List InterfaceDesc) :
    Except CheckError (InterfaceSelection × List Speed) :=
  if openOk = false then
    .error .openFailed
  else if configOk = false then
    .error .configFailed
  else
    check_device_loop ifaces

theorem nbp_none_iff (buffer : List Nat) :
    next_buffered_packet buffer = none ↔
      buffer.length ≤ 2 + (256 * buffer.getD 0 0 + buffer.getD 1 0) := by
  by_cases h1 : buffer.length ≤ 2
  · simp only [next_buffered_packet, if_pos h1]
    constructor
    · intro _
      omega
    · intro _
      trivial
  · by_cases h2 : buffer.length ≤ 2 + (256 * buffer.getD 0 0 + buffer.getD 1 0)
    · simp only [next_buffered_packet, if_neg h1, if_pos h2]
      constructor
      · intro _
        exact h2
      · intro _
        trivial
    · simp only [next_buffered_packet, if_neg h1, if_neg h2]
      constructor
      · intro hx
        exact absurd hx (by simp)
      · intro hx
        exact absurd hx h2

theorem nbp_some {buffer packet rest : List Nat}
    (h : next_buffered_packet buffer = some (packet, rest)) :
    2 + (256 * buffer.getD 0 0 + buffer.getD 1 0) < buffer.length ∧
    packet = (buffer.drop 2).take (256 * buffer.getD 0 0 + buffer.getD 1 0) ∧
    rest = buffer.drop (2 + (256 * buffer.getD 0 0 + buffer.getD 1 0)) := by
  unfold next_buffered_packet at h
  split at h
  · exact absurd h (by simp)
  · split at h
    · exact absurd h (by simp)
    · rename_i h1 h2
      simp only [Option.some.injEq, Prod.mk.injEq] at h
      exact ⟨by omega, h.1.symm, h.2.symm⟩

theorem nbp_append {buffer packet rest : List Nat} (X : List Nat)
    (h : next_buffered_packet buffer = some (packet, rest)) :
    next_buffered_packet (buffer ++ X) = some (packet, rest ++ X) := by
  obtain ⟨hlt, hp, hr⟩ := nbp_some h
  have hlen : (buffer ++ X).length = buffer.length + X.length :=
    List.length_append ..
  have h0 : (buffer ++ X).getD 0 0 = buffer.getD 0 0 :=
    List.getD_append _ _ _ _ (by omega)
  have h1 : (buffer ++ X).getD 1 0 = buffer.getD 1 0 :=
    List.getD_append _ _ _ _ (by omega)
  have hd2 : (buffer ++ X).drop 2 = buffer.drop 2 ++ X := by
    rw [List.drop_append_eq_append_drop, Nat.sub_eq_zero_of_le (by omega),
        List.drop_zero]
  have hdp : (buffer ++ X).drop (2 + (256 * buffer.getD 0 0 + buffer.getD 1 0))
      = buffer.drop (2 + (256 * buffer.getD 0 0 + buffer.getD 1 0)) ++ X := by
    rw [List.drop_append_eq_append_drop, Nat.sub_eq_zero_of_le (by omega),
        List.drop_zero]
  have ht : (buffer.drop 2 ++ X).take (256 * buffer.getD 0 0 + buffer.getD 1 0)
      = (buffer.drop 2).take (256 * buffer.getD 0 0 + buffer.getD 1 0) := by
    rw [List.take_append_eq_append_take,
        Nat.sub_eq_zero_of_le (by rw [List.length_drop]; omega),
        List.take_zero, List.append_nil]
  unfold next_buffered_packet
  rw [h0, h1, hlen, if_neg (by omega), if_neg (by omega), hd2, ht, hdp,
      ← hp, ← hr]

theorem deframe_none {bytes : List Nat}
    (h : next_buffered_packet bytes = none) : deframe bytes = [] := by
  rw [deframe.eq_def, h]

theorem deframe_some {bytes packet rest : List Nat}
    (h : next_buffered_packet bytes = some (packet, rest)) :
    deframe bytes = packet :: deframe rest := by
  rw [deframe.eq_def, h]

theorem streamAll_extract {buffer packet rest : List Nat}
    (chunks : List (List Nat))
    (h : next_buffered_packet buffer = some (packet, rest)) :
    streamAll buffer chunks = packet :: streamAll rest chunks := by
  cases chunks with
  | nil => rw [streamAll.eq_1, h]
  | cons c cs => rw [streamAll.eq_2, h]

theorem streamAll_nil {buffer : List Nat}
    (h : next_buffered_packet buffer = none) :
    streamAll buffer [] = [] := by
  rw [streamAll.eq_1, h]

theorem streamAll_recv {buffer c : List Nat} {cs : List (List Nat)}
    (h : next_buffered_packet buffer = none) :
    streamAll buffer (c :: cs) = streamAll (buffer ++ c) cs := by
  rw [streamAll.eq_2, h]

theorem streamAll_eq_deframe (buffer : List Nat) (chunks : List (List Nat)) :
    streamAll buffer chunks = deframe (buffer ++ chunks.flatten) := by
  induction buffer, chunks using streamAll.induct with
  | case1 buffer chunks packet rest h ih =>
    rw [streamAll_extract chunks h, ih, deframe_some (nbp_append _ h)]
  | case2 buffer h =>
    rw [streamAll_nil h, List.flatten_nil, List.append_nil, deframe_none h]
  | case3 buffer h c cs ih =>
    rw [streamAll_recv h, ih]
    simp [List.append_assoc]

theorem serialize_cons (p : List Nat) (ps : List (List Nat)) :
    serialize (p :: ps) = serializePacket p ++ serialize ps := by
  simp [serialize]

theorem deframe_serialize :
    ∀ packets : List (List Nat), deframe (serialize packets) = packets.dropLast
  | [] => by
    rw [deframe_none (by decide)]
    rfl
  | [p] => by
    have hs : serialize [p] = p.length / 256 :: p.length % 256 :: p := by
      simp [serialize, serializePacket]
    rw [hs, deframe_none ?_, List.dropLast_single]
    rw [nbp_none_iff]
    simp only [List.getD_cons_zero, List.getD_cons_succ, List.length_cons]
    omega
  | p :: q :: ps => by
    have hs : serialize (p :: q :: ps)
        = p.length / 256 :: p.length % 256 :: (p ++ serialize (q :: ps)) := by
      simp [serialize_cons, serializePacket]
    have hSlen : 2 ≤ (serialize (q :: ps)).length := by
      rw [serialize_cons]
      simp [serializePacket]
    have hnbp : next_buffered_packet (serialize (p :: q :: ps))
        = some (p, serialize (q :: ps)) := by
      rw [hs]
      unfold next_buffered_packet
      simp only [List.getD_cons_zero, List.getD_cons_succ, List.length_cons,
                 List.length_append]
      rw [if_neg (by omega), if_neg (by omega)]
      simp only [List.drop_succ_cons, List.drop_zero, Nat.div_add_mod,
                 Option.some.injEq, Prod.mk.injEq]
      constructor
      · exact List.take_left p (serialize (q :: ps))
      · have h2 : p.length / 256 :: p.length % 256 :: (p ++ serialize (q :: ps))
            = (p.length / 256 :: p.length % 256 :: p) ++ serialize (q :: ps) := by
          simp
        rw [h2]
        have h3 : (p.length / 256 :: p.length % 256 :: p).length
            = 2 + p.length := by
          simp [List.length_cons]
          omega
        rw [← h3, List.drop_left]
    rw [deframe_some hnbp, deframe_serialize (q :: ps)]
    rfl

/-- C1: the claim that a fully delivered back-to-back serialization of N
packets deframes to all N payloads fails on the scenario it names: the
bytes 00 03 AA BB CC 00 00 delivered in one chunk before the channel
closes yield only the packet AA BB CC, not the trailing empty packet,
because next_buffered_packet requires strictly more than 2 + packet_len
buffered bytes before extracting. -/
theorem C1_counterexample :
    streamAll [] [[0x00, 0x03, 0xAA, 0xBB, 0xCC, 0x00, 0x00]]
      ≠ [[0xAA, 0xBB, 0xCC], []] := by
  have h1 : streamAll [] [[0x00, 0x03, 0xAA, 0xBB, 0xCC, 0x00, 0x00]]
      = streamAll [0x00, 0x03, 0xAA, 0xBB, 0xCC, 0x00, 0x00] [] := by
    rw [streamAll_recv (by decide)]
    rfl
  have h2 : next_buffered_packet [0x00, 0x03, 0xAA, 0xBB, 0xCC, 0x00, 0x00]
      = some ([0xAA, 0xBB, 0xCC], [0x00, 0x00]) := by decide
  rw [h1, streamAll_extract _ h2, streamAll_nil (by decide)]
  decide

/-- C1 (amended): for every sequence of N packets, each of payload length
below 65536, serialized back-to-back as 2-byte big-endian length followed
by payload and delivered in any chunking through the channel before the
producer closes it, iterating the CynthionStream yields exactly the first
N - 1 payloads, in order, byte-identical; the final packet is withheld
because the extraction condition demands strictly more bytes than its
exact frame, so the input 00 03 AA BB CC 00 00 yields only AA BB CC. -/
theorem C1_deframing_drops_last (packets : List (List Nat))
    (hlen : ∀ p ∈ packets, p.length < 65536)
    (chunks : List (List Nat))
    (hchunks : chunks.flatten = serialize packets) :
    streamAll [] chunks = packets.dropLast := by
  rw [streamAll_eq_deframe, List.nil_append, hchunks, deframe_serialize]

theorem C1_witness :
    (∀ p ∈ [[0xAA, 0xBB, 0xCC], ([] : List Nat)], p.length < 65536) ∧
    ([[0x00, 0x03, 0xAA, 0xBB, 0xCC, 0x00, 0x00]] : List (List Nat)).flatten
      = serialize [[0xAA, 0xBB, 0xCC], []] ∧
    streamAll [] [[0x00, 0x03, 0xAA, 0xBB, 0xCC, 0x00, 0x00]]
      = ([[0xAA, 0xBB, 0xCC], []] : List (List Nat)).dropLast :=
  ⟨by decide, by decide,
   C1_deframing_drops_last [[0xAA, 0xBB, 0xCC], []] (by decide)
     [[0x00, 0x03, 0xAA, 0xBB, 0xCC, 0x00, 0x00]] (by decide)⟩

/-- C3: for every buffer state holding exactly 2 + payload_len bytes, where
payload_len is the big-endian value of the first two bytes,
next_buffered_packet yields no packet: the extraction condition requires
strictly more than 2 + payload_len buffered bytes. -/
theorem C3_exact_fit_yields_nothing (buffer : List Nat)
    (h : buffer.length = 2 + (256 * buffer.getD 0 0 + buffer.getD 1 0)) :
    next_buffered_packet buffer = none := by
  rw [nbp_none_iff]
  omega

theorem C3_witness :
    ([0, 2, 9, 9] : List Nat).length
      = 2 + (256 * ([0, 2, 9, 9] : List Nat).getD 0 0
             + ([0, 2, 9, 9] : List Nat).getD 1 0) ∧
    next_buffered_packet [0, 2, 9, 9] = none :=
  ⟨by decide, C3_exact_fit_yields_nothing [0, 2, 9, 9] (by decide)⟩

/-- C8: if the channel is closed (no chunks remain) and the buffered bytes
cannot satisfy a full frame under the extraction condition, then a call to
CynthionStream::next returns none and the iteration ends with no further
packets, silently discarding the trailing fragment. -/
theorem C8_trailing_fragment_discarded (buffer : List Nat)
    (h : buffer.length ≤ 2 ∨
         buffer.length ≤ 2 + (256 * buffer.getD 0 0 + buffer.getD 1 0)) :
    streamNext buffer [] = none ∧ streamAll buffer [] = [] := by
  have hn : next_buffered_packet buffer = none := by
    rw [nbp_none_iff]
    omega
  constructor
  · unfold streamNext
    rw [hn]
  · exact streamAll_nil hn

theorem C8_witness :
    (([0, 5, 1] : List Nat).length ≤ 2 ∨
     ([0, 5, 1] : List Nat).length
       ≤ 2 + (256 * ([0, 5, 1] : List Nat).getD 0 0
              + ([0, 5, 1] : List Nat).getD 1 0)) ∧
    streamNext [0, 5, 1] [] = none ∧ streamAll [0, 5, 1] [] = [] :=
  ⟨by decide, C8_trailing_fragment_discarded [0, 5, 1] (by decide)⟩

/-- C6: for every speed-mask response byte, the decoded speed list is a
sublist of the fixed order Auto, High, Full, Low (so it preserves that
order), a speed is in the decoded list exactly when its bitmask bit is set
in the byte, and the byte 0b1100 decodes to High, Full. -/
theorem C6_speed_decoding :
    (∀ b : Nat, (decodeSpeeds b).Sublist
      [Speed.Auto, Speed.High, Speed.Full, Speed.Low]) ∧
    (∀ (b : Nat) (s : Speed), s ∈ decodeSpeeds b ↔ b.land s.mask ≠ 0) ∧
    decodeSpeeds 0b1100 = [Speed.High, Speed.Full] := by
  refine ⟨fun b => List.filter_sublist _, fun b s => ?_, by decide⟩
  constructor
  · intro hs
    have hm := (List.mem_filter.mp hs).2
    simpa using hm
  · intro hne
    apply List.mem_filter.mpr
    refine ⟨?_, by simpa using hne⟩
    cases s <;> simp

theorem C6_witness :
    (decodeSpeeds 0b1100).Sublist
      [Speed.Auto, Speed.High, Speed.Full, Speed.Low] ∧
    (Speed.High ∈ decodeSpeeds 0b1100 ↔ Nat.land 0b1100 Speed.High.mask ≠ 0) ∧
    decodeSpeeds 0b1100 = [Speed.High, Speed.Full] :=
  ⟨C6_speed_decoding.1 0b1100, C6_speed_decoding.2.1 0b1100 Speed.High,
   C6_speed_decoding.2.2⟩

/-- C7: for every enabled flag and every speed, the state byte built by
State::new has the enabled flag in bit 0 and the 2-bit speed code in bits
1 and 2, and reading those bit-fields back through the bitfield accessors
yields the same enabled flag and speed. -/
theorem C7_state_roundtrip (e : Bool) (s : Speed) :
    (State.new e s).bits.testBit 0 = e ∧
    ((State.new e s).bits >>> 1).land 0b11 = s.toPrim ∧
    State.enable (State.new e s) = e ∧
    State.speed (State.new e s) = s := by
  cases e <;> cases s <;> decide

theorem C7_witness :
    (State.new true Speed.Auto).bits.testBit 0 = true ∧
    ((State.new true Speed.Auto).bits >>> 1).land 0b11 = Speed.Auto.toPrim ∧
    State.enable (State.new true Speed.Auto) = true ∧
    State.speed (State.new true Speed.Auto) = Speed.Auto :=
  C7_state_roundtrip true Speed.Auto

/-- C10: speed decoding depends only on the low four bits of the response
byte: decoding any byte equals decoding its low nibble, a byte whose low
nibble is zero (only bits 4 to 7 set) decodes to the empty list, and the
decoded list never has more than four elements nor any duplicate. -/
theorem C10_speed_low_nibble (b : Nat) :
    decodeSpeeds b = decodeSpeeds (b.land 15) ∧
    (b.land 15 = 0 → decodeSpeeds b = []) ∧
    (decodeSpeeds b).length ≤ 4 ∧
    (decodeSpeeds b).Nodup := by
  have key : decodeSpeeds b = decodeSpeeds (b.land 15) := by
    unfold decodeSpeeds
    refine (List.filter_congr ?_).symm
    intro s hs
    have hmask : (b.land 15).land s.mask = b.land s.mask := by
      show b &&& 15 &&& s.mask = b &&& s.mask
      rw [Nat.land_assoc]
      have h15 : 15 &&& s.mask = s.mask := by
        cases s <;> decide
      rw [h15]
    rw [hmask]
  refine ⟨key, ?_, ?_, ?_⟩
  · intro h0
    rw [key, h0]
    decide
  · exact List.length_filter_le _ _
  · exact List.Nodup.filter _ (by decide)

theorem C10_witness :
    decodeSpeeds 0xf0 = decodeSpeeds (Nat.land 0xf0 15) ∧
    Nat.land 0xf0 15 = 0 ∧
    decodeSpeeds 0xf0 = [] ∧
    (decodeSpeeds 0xf0).length ≤ 4 ∧
    (decodeSpeeds 0xf0).Nodup :=
  ⟨(C10_speed_low_nibble 0xf0).1, by decide,
   (C10_speed_low_nibble 0xf0).2.1 (by decide),
   (C10_speed_low_nibble 0xf0).2.2.1, (C10_speed_low_nibble 0xf0).2.2.2⟩

/-- C2: the claim that the disable state byte is written whenever the event
loop exits, whether with Ok or with a transfer error, fails on the code:
when the capture task ends with a transfer error the question-mark operator
propagates it before the disable write, so no disable state is written. -/
theorem C2_counterexample :
    (run_capture true (LoopExit.usbError (TransferErr.Other 3)) true).wroteDisable
      = false := by
  decide

/-- C2 (amended): the capture thread writes the disable state byte exactly
when the enable write succeeded and the capture event loop returned Ok; in
that case a failure of the disable write itself surfaces as the overall
result reported to the completion handler, while a loop error is reported
to the completion handler without any disable write. -/
theorem C2_disable_write (enableOk disableOk : Bool) (le : LoopExit) :
    ((run_capture enableOk le disableOk).wroteDisable = true ↔
      (enableOk = true ∧ le = LoopExit.ok)) ∧
    (run_capture true LoopExit.ok disableOk).result
      = (if disableOk then RunResult.ok else RunResult.disableWriteFailed) ∧
    (∀ e : LoopExit, e ≠ LoopExit.ok →
      run_capture true e disableOk = ⟨RunResult.loopError e, false⟩) := by
  refine ⟨?_, ?_, ?_⟩
  · cases enableOk <;> cases le <;> cases disableOk <;> simp [run_capture]
  · cases disableOk <;> simp [run_capture]
  · intro e he
    cases e with
    | ok => exact absurd rfl he
    | sendFailed => cases disableOk <;> simp [run_capture]
    | usbError te => cases disableOk <;> simp [run_capture]

theorem C2_witness :
    (LoopExit.sendFailed ≠ LoopExit.ok) ∧
    run_capture true LoopExit.sendFailed true
      = ⟨RunResult.loopError LoopExit.sendFailed, false⟩ :=
  ⟨by decide,
   (C2_disable_write true true LoopExit.sendFailed).2.2 LoopExit.sendFailed
     (by decide)⟩

/-- C4: once the capture loop has observed the cancellation signal (the
stopped flag is set), running it over any further sequence of wakeups
never forwards data to the output channel and never submits a new
transfer, and the stopped flag stays set; moreover, draining exactly the
pending count of cancelled-transfer completions terminates the loop with
Ok, with nothing further sent or submitted and the pool empty. -/
theorem C4_cancellation_drain :
    (∀ (s : LoopState) (evs : List Event), s.stopped = true →
      (capture_loop s evs).2.sent = s.sent ∧
      (capture_loop s evs).2.submitted = s.submitted ∧
      (capture_loop s evs).2.stopped = true) ∧
    (∀ s : LoopState, s.stopped = true → 0 < s.pending →
      capture_loop s (List.replicate s.pending
        (Event.completionErr TransferErr.Cancelled))
        = (some LoopExit.ok, ⟨true, 0, s.sent, s.submitted⟩)) := by
  constructor
  · intro s evs
    induction evs generalizing s with
    | nil =>
      intro h
      exact ⟨rfl, rfl, h⟩
    | cons ev evs ih =>
      intro h
      cases ev with
      | stop =>
        have hstep : capture_step s Event.stop
            = StepResult.next { s with stopped := true } := rfl
        simp only [capture_loop, hstep]
        exact ih _ rfl
      | completionOk data sendOk =>
        have hstep : capture_step s (Event.completionOk data sendOk)
            = StepResult.next { s with pending := s.pending - 1 } := by
          simp [capture_step, h]
        simp only [capture_loop, hstep]
        exact ih _ h
      | completionErr e =>
        cases e with
        | Cancelled =>
          by_cases hp : s.pending - 1 = 0
          · have hstep : capture_step s (Event.completionErr TransferErr.Cancelled)
                = StepResult.exit LoopExit.ok { s with pending := s.pending - 1 } := by
              simp [capture_step, h, hp]
            simp only [capture_loop, hstep]
            exact ⟨trivial, trivial, h⟩
          · have hstep : capture_step s (Event.completionErr TransferErr.Cancelled)
                = StepResult.next { s with pending := s.pending - 1 } := by
              simp [capture_step, h, hp]
            simp only [capture_loop, hstep]
            exact ih _ h
        | Other code =>
          have hstep : capture_step s (Event.completionErr (TransferErr.Other code))
              = StepResult.exit (LoopExit.usbError (TransferErr.Other code))
                  { s with pending := s.pending - 1 } := by
            simp [capture_step, h]
          simp only [capture_loop, hstep]
          exact ⟨trivial, trivial, h⟩
  · intro s hst hp
    obtain ⟨st, pending, sent, submitted⟩ := s
    simp only at hst hp ⊢
    subst hst
    revert hp
    induction pending with
    | zero =>
      intro hp
      omega
    | succ n ihn =>
      intro hp
      rw [List.replicate_succ]
      cases n with
      | zero =>
        simp [capture_loop, capture_step]
      | succ m =>
        have hstep : capture_step ⟨true, m + 2, sent, submitted⟩
            (Event.completionErr TransferErr.Cancelled)
            = StepResult.next ⟨true, m + 1, sent, submitted⟩ := by
          simp [capture_step]
        simp only [capture_loop, hstep]
        exact ihn (by omega)

theorem C4_witness :
    ((⟨true, 2, [[1]], 4⟩ : LoopState).stopped = true) ∧
    (0 < (⟨true, 2, [[1]], 4⟩ : LoopState).pending) ∧
    capture_loop ⟨true, 2, [[1]], 4⟩
      (List.replicate 2 (Event.completionErr TransferErr.Cancelled))
      = (some LoopExit.ok, ⟨true, 0, [[1]], 4⟩) ∧
    (capture_loop ⟨true, 2, [[1]], 4⟩ [Event.completionOk [9] true]).2.sent
      = [[1]] :=
  ⟨rfl, by decide,
   C4_cancellation_drain.2 ⟨true, 2, [[1]], 4⟩ rfl (by decide),
   (C4_cancellation_drain.1 ⟨true, 2, [[1]], 4⟩ [Event.completionOk [9] true]
     rfl).1⟩

/-- C5: the claim holds for the loop itself but not for stop: any transfer
completion failing with other than a Cancelled error while the stopped
flag is set makes the loop exit at once with that error even when
cancellation was requested, yet the loop ended with a transfer error and
stop() still returns Ok: the worker thread hands the error to the
completion handler and returns unit, so the join in stop() succeeds. -/
theorem C5_counterexample :
    capture_loop ⟨true, 1, [], 4⟩ [Event.completionErr (TransferErr.Other 7)]
      = (some (LoopExit.usbError (TransferErr.Other 7)), ⟨true, 0, [], 4⟩) ∧
    CynthionStop.stop true JoinResult.finished = Except.ok () := by
  constructor
  · decide
  · rfl

/-- C5 (amended): any transfer completion whose failure is not a Cancelled
error occurring while the cancelled flag is set makes the capture loop
terminate immediately with that error as the terminal result, even if
cancellation was also requested; that error is then reported through the
completion handler, while stop() returns Ok whenever the stop request was
delivered and the worker thread did not panic. -/
theorem C5_transfer_error_priority :
    (∀ (s : LoopState) (e : TransferErr),
      ¬(e = TransferErr.Cancelled ∧ s.stopped = true) →
      capture_step s (Event.completionErr e)
        = StepResult.exit (LoopExit.usbError e)
            { s with pending := s.pending - 1 }) ∧
    (∀ (e : TransferErr) (disableOk : Bool),
      (run_capture true (LoopExit.usbError e) disableOk).result
        = RunResult.loopError (LoopExit.usbError e)) ∧
    CynthionStop.stop true JoinResult.finished = Except.ok () := by
  refine ⟨?_, ?_, rfl⟩
  · intro s e he
    cases e with
    | Cancelled =>
      have hs : s.stopped = false := by
        cases hss : s.stopped
        · rfl
        · exact absurd ⟨rfl, hss⟩ he
      simp [capture_step, hs]
    | Other code =>
      cases hss : s.stopped <;> simp [capture_step, hss]
  · intro e disableOk
    simp [run_capture]

theorem C5_witness :
    (¬(TransferErr.Other 7 = TransferErr.Cancelled ∧
       (⟨true, 3, [], 4⟩ : LoopState).stopped = true)) ∧
    capture_step ⟨true, 3, [], 4⟩ (Event.completionErr (TransferErr.Other 7))
      = StepResult.exit (LoopExit.usbError (TransferErr.Other 7))
          ⟨true, 2, [], 4⟩ :=
  ⟨by decide,
   C5_transfer_error_priority.1 ⟨true, 3, [], 4⟩ (TransferErr.Other 7)
     (by decide)⟩

theorem scan_alt_settings_nomatch (iface : InterfaceDesc)
    (alts : List AltSetting)
    (h : ∀ a ∈ alts, a.usb_class ≠ CLASS ∨ a.usb_subclass ≠ SUBCLASS) :
    scan_alt_settings iface alts = none := by
  induction alts with
  | nil => rfl
  | cons a rest ih =>
    simp only [scan_alt_settings]
    rw [if_pos (h a (List.mem_cons_self a rest))]
    exact ih (fun x hx => h x (List.mem_cons_of_mem a hx))

theorem scan_alt_settings_wrong_protocol (iface : InterfaceDesc)
    (alts1 alts2 : List AltSetting) (alt : AltSetting)
    (h1 : ∀ a ∈ alts1, a.usb_class ≠ CLASS ∨ a.usb_subclass ≠ SUBCLASS)
    (hc : alt.usb_class = CLASS) (hsc : alt.usb_subclass = SUBCLASS)
    (hp : alt.protocol ≠ PROTOCOL) :
    scan_alt_settings iface (alts1 ++ alt :: alts2)
      = some (.error (.wrongProtocol PROTOCOL alt.protocol)) := by
  induction alts1 with
  | nil =>
    simp only [List.nil_append, scan_alt_settings]
    rw [if_neg (by push_neg; exact ⟨hc, hsc⟩), if_pos hp]
  | cons a rest ih =>
    simp only [List.cons_append, scan_alt_settings]
    rw [if_pos (h1 a (List.mem_cons_self a rest))]
    exact ih (fun x hx => h1 x (List.mem_cons_of_mem a hx))

theorem check_device_loop_nomatch (ifaces : List InterfaceDesc)
    (h : ∀ i ∈ ifaces, ∀ a ∈ i.alt_settings,
      a.usb_class ≠ CLASS ∨ a.usb_subclass ≠ SUBCLASS) :
    check_device_loop ifaces = .error .noInterface := by
  induction ifaces with
  | nil => rfl
  | cons i rest ih =>
    simp only [check_device_loop]
    rw [scan_alt_settings_nomatch i i.alt_settings
      (h i (List.mem_cons_self i rest))]
    exact ih (fun x hx => h x (List.mem_cons_of_mem i hx))

/-- C9: during probing with a device that opens and reports its
configuration, if the first alternate setting matching the analyzer class
and subclass (no earlier alternate setting of any interface matches) has a
protocol byte differing from the expected value, check_device fails with
the version-mismatch error for that protocol, whatever alternate settings
or interfaces follow; and if no alternate setting of any interface matches
the class and subclass, check_device fails with the no-supported-interface
error. -/
theorem C9_probe_failures :
    (∀ (pre : List InterfaceDesc) (iface : InterfaceDesc)
       (rest : List InterfaceDesc) (alts1 alts2 : List AltSetting)
       (alt : AltSetting),
      (∀ i ∈ pre, ∀ a ∈ i.alt_settings,
        a.usb_class ≠ CLASS ∨ a.usb_subclass ≠ SUBCLASS) →
      iface.alt_settings = alts1 ++ alt :: alts2 →
      (∀ a ∈ alts1, a.usb_class ≠ CLASS ∨ a.usb_subclass ≠ SUBCLASS) →
      alt.usb_class = CLASS → alt.usb_subclass = SUBCLASS →
      alt.protocol ≠ PROTOCOL →
      check_device true true (pre ++ iface :: rest)
        = .error (.wrongProtocol PROTOCOL alt.protocol)) ∧
    (∀ ifaces : List InterfaceDesc,
      (∀ i ∈ ifaces, ∀ a ∈ i.alt_settings,
        a.usb_class ≠ CLASS ∨ a.usb_subclass ≠ SUBCLASS) →
      check_device true true ifaces = .error .noInterface) := by
  constructor
  · intro pre iface rest alts1 alts2 alt hpre halts h1 hc hsc hp
    show check_device_loop (pre ++ iface :: rest) = _
    induction pre with
    | nil =>
      simp only [List.nil_append, check_device_loop]
      rw [halts, scan_alt_settings_wrong_protocol iface alts1 alts2 alt h1 hc hsc hp]
    | cons i pre2 ih =>
      simp only [List.cons_append, check_device_loop]
      rw [scan_alt_settings_nomatch i i.alt_settings
        (hpre i (List.mem_cons_self i pre2))]
      exact ih (fun x hx => hpre x (List.mem_cons_of_mem i hx))
  · intro ifaces h
    show check_device_loop ifaces = _
    exact check_device_loop_nomatch ifaces h

theorem C9_witness :
    ((AltSetting.mk 1 0xff 0x10 5).protocol ≠ PROTOCOL) ∧
    check_device true true
      [InterfaceDesc.mk 0 [AltSetting.mk 1 0xff 0x10 5] true true (some 3)]
      = Except.error (CheckError.wrongProtocol PROTOCOL 5) ∧
    check_device true true
      [InterfaceDesc.mk 7 [AltSetting.mk 0 1 2 3] true true none]
      = Except.error CheckError.noInterface :=
  ⟨by decide,
   C9_probe_failures.1 [] (InterfaceDesc.mk 0 [AltSetting.mk 1 0xff 0x10 5]
       true true (some 3)) [] [] [] (AltSetting.mk 1 0xff 0x10 5)
     (by simp) rfl (by simp) rfl rfl (by decide),
   C9_probe_failures.2 [InterfaceDesc.mk 7 [AltSetting.mk 0 1 2 3] true true none]
     (by decide)⟩

end Cynthion
